import Mathlib

/-!
Shallow embedding of `fiftyone/core/view.py` (class `DatasetView`): the
pipeline stage descriptors the view builds, the chainable view-construction
methods, and a model of the external document store's aggregation engine
(an out-of-scope collaborator, specified only through the interface the
core needs), together with theorems about the pipeline-composition and
materialization protocol.
-/

set_option autoImplicit false

namespace FiftyOne

/-- A stored or result document of the external document store: an optional
`_id` (count-stage output documents carry none), a `tags` array, and scalar
fields (used by sort and by generic match queries). -/
structure Doc where
  id : Option Nat
  tags : List String
  fields : List (String × Int)
  deriving DecidableEq

/-- A generic MongoDB query dict, as passed to `DatasetView.filter(filter=...)`:
modelled as a conjunction of scalar field equalities. -/
abbrev Query := List (String × Int)

/-- The document predicates appearing under `"$match"` in `view.py`:
`{"tags": tag}`, `{"_id": oid}`, `{"_id": {"$in": ids}}`,
`{"_id": {"$not": {"$in": ids}}}`, and a generic query dict. -/
inductive MatchFilter where
  | tagEq (tag : String)
  | idEq (sampleId : Nat)
  | idIn (sampleIds : List Nat)
  | idNotIn (sampleIds : List Nat)
  | query (q : Query)
  deriving DecidableEq

/-- The pipeline stage descriptors built by `DatasetView`: `{"$match": f}`,
`{"$sort": {field: order}}`, `{"$limit": size}`, `{"$sample": {"size": size}}`,
`{"$skip": offset}` and `{"$count": field}`. -/
inductive Stage where
  | matchStage (f : MatchFilter)
  | sortStage (field : String) (order : Int)
  | limitStage (size : Int)
  | sampleStage (size : Int)
  | skipStage (offset : Int)
  | countStage (field : String)
  deriving DecidableEq

/-- `pymongo.ASCENDING`. -/
def ASCENDING : Int := 1

/-- `pymongo.DESCENDING`. -/
def DESCENDING : Int := -1

/-- Whether a stage descriptor is a `$skip` stage (the `"$skip" in stage`
test of `DatasetView._get_latest_offset`). -/
def Stage.isSkip : Stage → Bool
  | .skipStage _ => true
  | _ => false

/-- The owning collection (`fiftyone.core.dataset.Dataset`), an external
collaborator; the core only needs its stored documents. -/
structure Dataset where
  docs : List Doc
  deriving DecidableEq

/-- A domain record (`fiftyone.core.sample.Sample`): the materialized
document bound back to its owning dataset (`Sample.from_doc` followed by
`_set_dataset`, as in `DatasetView._load_sample`). -/
structure Sample where
  doc : Doc
  dataset : Dataset
  deriving DecidableEq

/-- Modelled from the spec: the store's `$match` predicate for the filter
shapes this core builds — array containment for `{"tags": tag}`, identifier
equality and (non-)membership for the `_id` shapes, and conjunctive field
equality for a generic query dict. -/
def matchesFilter (f : MatchFilter) (d : Doc) : Bool :=
  match f with
  | .tagEq t => d.tags.contains t
  | .idEq i => d.id == some i
  | .idIn ids =>
      match d.id with
      | some i => ids.contains i
      | none => false
  | .idNotIn ids =>
      match d.id with
      | some i => !(ids.contains i)
      | none => true
  | .query q => q.all fun p => d.fields.lookup p.1 == some p.2

/-- The sort key of a document for `{"$sort": {field: order}}`: the value of
the named scalar field, when present. -/
def sortKey (field : String) (d : Doc) : Option Int :=
  d.fields.lookup field

/-- Comparison of sort keys; a missing key orders before any present key. -/
def keyLE : Option Int → Option Int → Bool
  | none, _ => true
  | some _, none => false
  | some a, some b => a ≤ b

/-- Insertion into a sorted document list, preserving the order `le`. -/
def insertSorted (le : Doc → Doc → Bool) (d : Doc) : List Doc → List Doc
  | [] => [d]
  | e :: es => if le d e then d :: e :: es else e :: insertSorted le d es

/-- Modelled from the spec: the store's `$sort` stage — documents ordered by
the named field, ascending for a non-negative order value and descending
otherwise. -/
def sortDocs (field : String) (order : Int) (docs : List Doc) : List Doc :=
  if 0 ≤ order then
    docs.foldr (insertSorted fun a b => keyLE (sortKey field a) (sortKey field b)) []
  else
    docs.foldr (insertSorted fun a b => keyLE (sortKey field b) (sortKey field a)) []

/-- Modelled from the spec: one step of the external store's aggregation
engine. `$match` filters the stream, `$sort` reorders it, `$limit` truncates,
`$sample` is modelled as a deterministic size-`n` selection (the store's
choice of random subset is opaque), `$skip` drops a prefix, and `$count`
replaces the stream by a single `{field: n}` document — or by nothing at all
when its input is empty. -/
def execStage (docs : List Doc) : Stage → List Doc
  | .matchStage f => docs.filter (matchesFilter f)
  | .sortStage field order => sortDocs field order docs
  | .limitStage n => docs.take n.toNat
  | .sampleStage n => docs.take n.toNat
  | .skipStage n => docs.drop n.toNat
  | .countStage field =>
      if docs.isEmpty then []
      else [{ id := none, tags := [], fields := [(field, (docs.length : Int))] }]

/-- Modelled from the spec: the external store's query-execution entry point —
"accepts an ordered list of stage descriptors, returns an iterable of result
documents". Stages execute left to right. -/
def execPipeline (docs : List Doc) (pipeline : List Stage) : List Doc :=
  pipeline.foldl execStage docs

/-- Modelled from the spec: `Dataset._get_query_set().aggregate(pipeline)`
executes the pipeline over the collection's stored documents. -/
def Dataset.aggregate (ds : Dataset) (pipeline : List Stage) : List Doc :=
  execPipeline ds.docs pipeline

/-- The failures this core signals: `NotImplementedError` (unimplemented
filter selectors) and `KeyError` (lookup by id found nothing), the latter
keyed by the requested identifier. -/
inductive ViewErr where
  | notImplementedError (msg : String)
  | keyError (sampleId : Nat)
  deriving DecidableEq

/-- Modelled from the spec: the owning collection's identity lookup
(`self._dataset[sample_id]`; `get_by_id(id) -> Record | NotFound`), returning
the fully populated record bound to the collection. -/
def Dataset.getitem (ds : Dataset) (sampleId : Nat) : Except ViewErr Sample :=
  match ds.docs.find? fun d => d.id == some sampleId with
  | some d => .ok { doc := d, dataset := ds }
  | none => .error (.keyError sampleId)

/-- `class DatasetView`: an owning dataset plus the pipeline of stage
descriptors accumulated by chaining. -/
structure DatasetView where
  _dataset : Dataset
  _pipeline : List Stage
  deriving DecidableEq

namespace DatasetView

/-- `DatasetView.__init__`: wraps a dataset with an empty pipeline. -/
def init (dataset : Dataset) : DatasetView :=
  { _dataset := dataset, _pipeline := [] }

/-- `DatasetView.__copy__`: a fresh view over the same dataset whose pipeline
is a deep copy of the receiver's (deep copies are equal values in the
embedding). -/
def __copy__ (v : DatasetView) : DatasetView :=
  { _dataset := v._dataset, _pipeline := v._pipeline }

/-- `DatasetView._copy_with_new_stage`: copy the view, then append the one
new stage to the copy's pipeline. -/
def _copy_with_new_stage (v : DatasetView) (stage : Stage) : DatasetView :=
  let view := v.__copy__
  { view with _pipeline := view._pipeline ++ [stage] }

/-- `DatasetView._get_ds_qs`: the owning dataset's query set. -/
def _get_ds_qs (v : DatasetView) : Dataset :=
  v._dataset

/-- `DatasetView.aggregate`: append the optional extra pipeline to the view's
own pipeline and delegate to the owning dataset's query set. -/
def aggregate (v : DatasetView) (pipeline : Option (List Stage)) : List Doc :=
  let pipeline := pipeline.getD []
  (v._get_ds_qs).aggregate (v._pipeline ++ pipeline)

/-- `DatasetView.__len__`: aggregate with `{"$count": "count"}` appended; an
empty result (`StopIteration`) yields 0, otherwise the first document's
`"count"` value. -/
def __len__ (v : DatasetView) : Int :=
  match (v.aggregate (some [.countStage "count"])).head? with
  | some d => (d.fields.lookup "count").getD 0
  | none => 0

/-- `DatasetView.__getitem__`: probe the view's pipeline with an appended
match on the id; absence raises `KeyError` with the id, presence returns
`self._dataset[sample_id]` fetched from the owning dataset directly. -/
def __getitem__ (v : DatasetView) (sampleId : Nat) : Except ViewErr Sample :=
  let pipeline := [Stage.matchStage (.idEq sampleId)]
  if (v.aggregate (some pipeline)).isEmpty then .error (.keyError sampleId)
  else v._dataset.getitem sampleId

/-- `DatasetView._deserialize_sample` composed with `_load_sample`: bind a
result document to the owning dataset. -/
def _deserialize_sample (v : DatasetView) (d : Doc) : Sample :=
  { doc := d, dataset := v._dataset }

/-- `DatasetView.iter_samples`: materialize the view's own pipeline and
deserialize each result document. -/
def iter_samples (v : DatasetView) : List Sample :=
  (v.aggregate none).map v._deserialize_sample

/-- The reverse scan of `DatasetView._get_latest_offset`: the operand of the
first `$skip` stage encountered, defaulting to 0. -/
def getLatestOffsetAux : List Stage → Int
  | [] => 0
  | .skipStage n :: _ => n
  | _ :: rest => getLatestOffsetAux rest

/-- `DatasetView._get_latest_offset`: the operand of the last `$skip` stage
of the pipeline (scanning in reverse), or 0 when none is present. -/
def _get_latest_offset (v : DatasetView) : Int :=
  getLatestOffsetAux v._pipeline.reverse

/-- Python's `enumerate(it, start)`. -/
def enumFrom {α : Type} (start : Int) : List α → List (Int × α)
  | [] => []
  | a :: rest => (start, a) :: enumFrom (start + 1) rest

/-- `DatasetView.iter_samples_with_index`: each sample paired with its
integer index, counting from `_get_latest_offset`. -/
def iter_samples_with_index (v : DatasetView) : List (Int × Sample) :=
  let offset := v._get_latest_offset
  enumFrom offset v.iter_samples

/-- `DatasetView.filter`: a `tag` selector appends a tags match stage and a
`filter` query dict appends a generic match stage; `insight_group` or
`label_group`, when given, raise `NotImplementedError`. -/
def filter (v : DatasetView) (tag : Option String) (insight_group : Option String)
    (label_group : Option String) (filt : Option Query) : Except ViewErr DatasetView :=
  let view := v
  let view :=
    match tag with
    | some t => view._copy_with_new_stage (.matchStage (.tagEq t))
    | none => view
  if insight_group.isSome then .error (.notImplementedError "Not yet implemented")
  else if label_group.isSome then .error (.notImplementedError "Not yet implemented")
  else
    match filt with
    | some f => .ok (view._copy_with_new_stage (.matchStage (.query f)))
    | none => .ok view

/-- `DatasetView.sort_by`: append one `$sort` stage, descending when
`reverse` is set. -/
def sort_by (v : DatasetView) (field : String) (reverse : Bool) : DatasetView :=
  let order := if reverse then DESCENDING else ASCENDING
  v._copy_with_new_stage (.sortStage field order)

/-- `DatasetView.take`: append one `$sample` stage when `random`, else one
`$limit` stage. -/
def take (v : DatasetView) (size : Int) (random : Bool) : DatasetView :=
  let stage := if random then Stage.sampleStage size else Stage.limitStage size
  v._copy_with_new_stage stage

/-- `DatasetView.offset`: append one `$skip` stage. -/
def offset (v : DatasetView) (n : Int) : DatasetView :=
  v._copy_with_new_stage (.skipStage n)

/-- `DatasetView.select`: parse the ids and append one inclusion match
stage. -/
def select (v : DatasetView) (sample_ids : List Nat) : DatasetView :=
  v._copy_with_new_stage (.matchStage (.idIn sample_ids))

/-- `DatasetView.exclude`: parse the ids and append one exclusion match
stage. -/
def exclude (v : DatasetView) (sample_ids : List Nat) : DatasetView :=
  v._copy_with_new_stage (.matchStage (.idNotIn sample_ids))

end DatasetView

/-- An empty concrete dataset, for concrete evaluations. -/
def ds0 : Dataset :=
  { docs := [] }

/-- A view over the empty dataset. -/
def v0 : DatasetView :=
  DatasetView.init ds0

/-- Record A of the spec's scenario collection. -/
def docA : Doc := { id := some 1, tags := ["x"], fields := [] }

/-- Record B of the spec's scenario collection. -/
def docB : Doc := { id := some 2, tags := ["x"], fields := [] }

/-- Record C of the spec's scenario collection. -/
def docC : Doc := { id := some 3, tags := ["y"], fields := [] }

/-- Record D of the spec's scenario collection. -/
def docD : Doc := { id := some 4, tags := [], fields := [] }

/-- Record E of the spec's scenario collection. -/
def docE : Doc := { id := some 5, tags := ["y"], fields := [] }

/-- The spec's scenario collection with records A,B,C,D,E. -/
def dsABCDE : Dataset :=
  { docs := [docA, docB, docC, docD, docE] }

/-- A view over the scenario collection. -/
def vABCDE : DatasetView :=
  DatasetView.init dsABCDE

/-! ### Helper lemmas shared across the development -/

theorem execPipeline_append (docs : List Doc) (p q : List Stage) :
    execPipeline docs (p ++ q) = execPipeline (execPipeline docs p) q := by
  simp [execPipeline, List.foldl_append]

theorem aggregate_copy_with_new_stage (v : DatasetView) (s : Stage) :
    (v._copy_with_new_stage s).aggregate none = execStage (v.aggregate none) s := by
  simp [DatasetView.aggregate, DatasetView._copy_with_new_stage, DatasetView.__copy__,
    DatasetView._get_ds_qs, Dataset.aggregate, execPipeline, List.foldl_append]

theorem len_eq_card (v : DatasetView) : v.__len__ = ((v.aggregate none).length : Int) := by
  have hagg : v.aggregate (some [Stage.countStage "count"])
      = execStage (v.aggregate none) (.countStage "count") := by
    simp [DatasetView.aggregate, Dataset.aggregate, DatasetView._get_ds_qs,
      execPipeline, List.foldl_append]
  unfold DatasetView.__len__
  rw [hagg]
  rcases hres : v.aggregate none with _ | ⟨d, rest⟩
  · simp [execStage]
  · simp [execStage, List.lookup]

theorem DatasetView.enumFrom_getElem {α : Type} (b : Int) (l : List α) (k : Nat) :
    (DatasetView.enumFrom b l)[k]? = (l[k]?).map fun a => (b + k, a) := by
  induction l generalizing b k with
  | nil => simp [DatasetView.enumFrom]
  | cons a rest ih =>
    cases k with
    | zero => simp [DatasetView.enumFrom]
    | succ k =>
      simp only [DatasetView.enumFrom, List.getElem?_cons_succ, ih]
      cases rest[k]? with
      | none => rfl
      | some x =>
        have h1 : b + 1 + (k : Int) = b + ((k + 1 : Nat) : Int) := by push_cast; ring
        simp [h1]

theorem DatasetView.getLatestOffsetAux_no_skip :
    ∀ l : List Stage, (∀ s ∈ l, s.isSkip = false) → DatasetView.getLatestOffsetAux l = 0
  | [], _ => rfl
  | s :: rest, h => by
    have hrest : ∀ x ∈ rest, x.isSkip = false := fun x hx => h x (List.mem_cons_of_mem _ hx)
    cases s with
    | skipStage n => simpa [Stage.isSkip] using h _ (List.mem_cons_self _ _)
    | matchStage f => simpa [DatasetView.getLatestOffsetAux] using DatasetView.getLatestOffsetAux_no_skip rest hrest
    | sortStage f o => simpa [DatasetView.getLatestOffsetAux] using DatasetView.getLatestOffsetAux_no_skip rest hrest
    | limitStage n => simpa [DatasetView.getLatestOffsetAux] using DatasetView.getLatestOffsetAux_no_skip rest hrest
    | sampleStage n => simpa [DatasetView.getLatestOffsetAux] using DatasetView.getLatestOffsetAux_no_skip rest hrest
    | countStage f => simpa [DatasetView.getLatestOffsetAux] using DatasetView.getLatestOffsetAux_no_skip rest hrest

theorem latest_offset_after_offset (v : DatasetView) (n : Int) :
    (v.offset n)._get_latest_offset = n := by
  simp [DatasetView.offset, DatasetView._get_latest_offset, DatasetView._copy_with_new_stage,
    DatasetView.__copy__, DatasetView.getLatestOffsetAux]

theorem mem_insertSorted (le : Doc → Doc → Bool) (x d : Doc) (l : List Doc) :
    d ∈ insertSorted le x l → d = x ∨ d ∈ l := by
  induction l with
  | nil => intro h; simpa [insertSorted] using h
  | cons e es ih =>
    intro h
    by_cases hle : le x e
    · simp only [insertSorted, hle, if_pos, List.mem_cons] at h
      rcases h with h | h | h
      · exact Or.inl h
      · exact Or.inr (by simp [h])
      · exact Or.inr (List.mem_cons_of_mem _ h)
    · simp only [insertSorted, hle, if_neg, Bool.false_eq_true, not_false_iff] at h
      rcases List.mem_cons.mp h with h | h
      · exact Or.inr (by simp [h])
      · rcases ih h with h1 | h1
        · exact Or.inl h1
        · exact Or.inr (List.mem_cons_of_mem _ h1)

theorem mem_insertionSort (le : Doc → Doc → Bool) (d : Doc) (l : List Doc) :
    d ∈ l.foldr (insertSorted le) [] → d ∈ l := by
  induction l with
  | nil => intro h; simp at h
  | cons e es ih =>
    intro h
    rcases mem_insertSorted le e d _ h with h1 | h1
    · simp [h1]
    · exact List.mem_cons_of_mem _ (ih h1)

theorem mem_sortDocs (field : String) (order : Int) (docs : List Doc) (d : Doc)
    (h : d ∈ sortDocs field order docs) : d ∈ docs := by
  unfold sortDocs at h
  split at h
  · exact mem_insertionSort _ _ _ h
  · exact mem_insertionSort _ _ _ h

theorem mem_execStage (docs : List Doc) (s : Stage) (d : Doc)
    (h : d ∈ execStage docs s) : d ∈ docs ∨ d.id = none := by
  cases s with
  | matchStage f => exact Or.inl (List.mem_of_mem_filter h)
  | sortStage f o => exact Or.inl (mem_sortDocs _ _ _ _ h)
  | limitStage n => exact Or.inl (List.mem_of_mem_take h)
  | sampleStage n => exact Or.inl (List.mem_of_mem_take h)
  | skipStage n => exact Or.inl (List.mem_of_mem_drop h)
  | countStage f =>
    right
    simp only [execStage] at h
    split at h
    · simp at h
    · simp only [List.mem_singleton] at h
      simp [h]

theorem mem_execPipeline :
    ∀ (p : List Stage) (docs : List Doc) (d : Doc),
      d ∈ execPipeline docs p → d ∈ docs ∨ d.id = none
  | [], _, _, h => Or.inl h
  | s :: rest, docs, d, h => by
    rcases mem_execPipeline rest (execStage docs s) d h with h1 | h1
    · exact mem_execStage docs s d h1
    · exact Or.inr h1

theorem find_id_of_aggregate_ne_nil (v : DatasetView) (sampleId : Nat)
    (h : v.aggregate (some [Stage.matchStage (.idEq sampleId)]) ≠ []) :
    ∃ d, v._dataset.docs.find? (fun x => x.id == some sampleId) = some d := by
  obtain ⟨d, hd⟩ := List.exists_mem_of_ne_nil _ h
  have hres : v.aggregate (some [Stage.matchStage (.idEq sampleId)])
      = (execPipeline v._dataset.docs v._pipeline).filter
          (matchesFilter (.idEq sampleId)) := by
    simp [DatasetView.aggregate, Dataset.aggregate, DatasetView._get_ds_qs,
      execPipeline, List.foldl_append, execStage]
  rw [hres] at hd
  have hmatch : matchesFilter (.idEq sampleId) d = true := List.of_mem_filter hd
  have hmem : d ∈ execPipeline v._dataset.docs v._pipeline := List.mem_of_mem_filter hd
  have hid : d.id = some sampleId := by
    simpa [matchesFilter] using hmatch
  have hdocs : d ∈ v._dataset.docs := by
    rcases mem_execPipeline _ _ _ hmem with h1 | h1
    · exact h1
    · rw [h1] at hid; cases hid
  have hsome : (v._dataset.docs.find? (fun x => x.id == some sampleId)).isSome := by
    rw [List.find?_isSome]
    exact ⟨d, hdocs, by simp [hid]⟩
  exact Option.isSome_iff_exists.mp hsome

/-! ### Claim theorems -/

/-- C1: chaining is copy-on-write. A chain call such as `sort_by` goes
through `_copy_with_new_stage`, which first copies the view via `__copy__`
(a deep copy of the pipeline, an independent equal value) and appends
exactly the one new stage to the copy, so the derived view's pipeline is the
receiver's pipeline plus that stage, the receiver's own pipeline value being
untouched and unshared. -/
theorem sort_by_copy_on_write (v : DatasetView) (field : String) (reverse : Bool) :
    (v.sort_by field reverse)._pipeline
        = v._pipeline ++ [Stage.sortStage field (if reverse then DESCENDING else ASCENDING)]
    ∧ (v.sort_by field reverse)._dataset = v._dataset
    ∧ (∀ s : Stage, (v._copy_with_new_stage s)._pipeline = v._pipeline ++ [s]
        ∧ (v._copy_with_new_stage s)._dataset = v._dataset)
    ∧ v.__copy__ = v := by
  refine ⟨?_, rfl, fun s => ⟨rfl, rfl⟩, rfl⟩
  cases reverse <;> rfl

/-- C2 counterexample: a single `filter` call passing both a `tag` and a
`filter` query appends two stages to the (empty) receiver pipeline, not
exactly one. -/
theorem filter_two_stages_counterexample :
    Except.map (fun w => w._pipeline.length) (v0.filter (some "x") none none (some [("a", 1)]))
        = Except.ok 2
    ∧ Except.map (fun w => w._pipeline) (v0.filter (some "x") none none (some [("a", 1)]))
        = Except.ok [Stage.matchStage (.tagEq "x"), Stage.matchStage (.query [("a", 1)])] := by
  exact ⟨rfl, rfl⟩

/-- C2 amended: `sort_by`, `take`, `offset`, `select` and `exclude` each
build exactly one stage and return a view whose pipeline is the receiver's
plus that stage; `filter` builds one match stage per given selector among
`tag` and `filter` — zero stages (returning the receiver unchanged) when
neither is given, and two stages when both are given. -/
theorem chain_methods_stage_counts (v : DatasetView) (field : String)
    (reverse random : Bool) (size n : Int) (ids : List Nat) (t : String) (q : Query) :
    (v.sort_by field reverse)._pipeline.length = v._pipeline.length + 1
    ∧ (v.take size random)._pipeline
        = v._pipeline ++ [if random then Stage.sampleStage size else Stage.limitStage size]
    ∧ (v.offset n)._pipeline = v._pipeline ++ [Stage.skipStage n]
    ∧ (v.select ids)._pipeline = v._pipeline ++ [Stage.matchStage (.idIn ids)]
    ∧ (v.exclude ids)._pipeline = v._pipeline ++ [Stage.matchStage (.idNotIn ids)]
    ∧ v.filter (some t) none none none = .ok (v._copy_with_new_stage (.matchStage (.tagEq t)))
    ∧ v.filter none none none (some q) = .ok (v._copy_with_new_stage (.matchStage (.query q)))
    ∧ v.filter none none none none = .ok v
    ∧ Except.map (fun w => w._pipeline) (v.filter (some t) none none (some q))
        = .ok (v._pipeline ++ [Stage.matchStage (.tagEq t), Stage.matchStage (.query q)]) := by
  refine ⟨?_, ?_, rfl, rfl, rfl, rfl, rfl, rfl, ?_⟩
  · simp [DatasetView.sort_by, DatasetView._copy_with_new_stage, DatasetView.__copy__]
  · cases random <;> rfl
  · simp [DatasetView.filter, DatasetView._copy_with_new_stage, DatasetView.__copy__,
      Except.map]

/-- C3: `iter_samples_with_index` pairs the k-th emitted sample with the
integer index `_get_latest_offset + k`, where `_get_latest_offset` is the
operand of the last `$skip` stage of the pipeline (scanning from the end, so
chained offsets override — most recent wins) and 0 when no skip stage is
present; in particular a view ending in `offset 10` emits indices starting
at 10. -/
theorem iter_samples_with_index_base (v : DatasetView) (k : Nat) (m : Int) :
    (v.iter_samples_with_index)[k]?
        = (v.iter_samples[k]?).map (fun s => (v._get_latest_offset + k, s))
    ∧ (v.offset 10)._get_latest_offset = 10
    ∧ ((v.offset m).offset 10)._get_latest_offset = 10
    ∧ ((∀ s ∈ v._pipeline, s.isSkip = false) → v._get_latest_offset = 0)
    ∧ ((v.offset 10).iter_samples_with_index)[0]?
        = ((v.offset 10).iter_samples[0]?).map (fun s => (10, s)) := by
  refine ⟨DatasetView.enumFrom_getElem _ _ _, latest_offset_after_offset v 10,
    latest_offset_after_offset _ 10, ?_, ?_⟩
  · intro h
    unfold DatasetView._get_latest_offset
    exact DatasetView.getLatestOffsetAux_no_skip _
      (fun s hs => h s (List.mem_reverse.mp hs))
  · have h1 := DatasetView.enumFrom_getElem (10 : Int) ((v.offset 10).iter_samples) 0
    simp only [DatasetView.iter_samples_with_index, latest_offset_after_offset]
    simpa using h1

/-- C4: `aggregate` executes exactly the concatenation of the view's own
pipeline with the extra stages against the owning dataset's query set; the
extra stages apply after the view's own stages, in order, and `aggregate`
with no extra stages executes exactly the view's pipeline. The view is a
value the call never rebuilds, so its pipeline is unchanged. -/
theorem aggregate_concatenates (v : DatasetView) (xs : List Stage) :
    v.aggregate (some xs) = (v._get_ds_qs).aggregate (v._pipeline ++ xs)
    ∧ v.aggregate (some xs) = execPipeline (v.aggregate none) xs
    ∧ v.aggregate none = (v._get_ds_qs).aggregate v._pipeline := by
  refine ⟨rfl, ?_, by simp [DatasetView.aggregate]⟩
  simp [DatasetView.aggregate, Dataset.aggregate, DatasetView._get_ds_qs,
    execPipeline_append]

/-- C5: `select` and `exclude` have set semantics over record identifiers:
`select ids` restricts the materialized view to exactly the documents whose
id lies in `ids`, `exclude ids` removes exactly those documents, and on the
scenario collection A,B,C,D,E the chain `select [B,D,E]` then `exclude [D]`
counts 2 and yields exactly the records B and E. -/
theorem select_exclude_set_semantics (v : DatasetView) (ids : List Nat) :
    (v.select ids).aggregate none = (v.aggregate none).filter (matchesFilter (.idIn ids))
    ∧ (v.exclude ids).aggregate none
        = (v.aggregate none).filter (matchesFilter (.idNotIn ids))
    ∧ (∀ d : Doc, matchesFilter (.idIn ids) d = true ↔ ∃ i ∈ ids, d.id = some i)
    ∧ (∀ d : Doc, matchesFilter (.idNotIn ids) d = true ↔ ∀ i ∈ ids, d.id ≠ some i)
    ∧ ((vABCDE.select [2, 4, 5]).exclude [4]).__len__ = 2
    ∧ (((vABCDE.select [2, 4, 5]).exclude [4]).aggregate none).map Doc.id
        = [some 2, some 5] := by
  refine ⟨aggregate_copy_with_new_stage v _, aggregate_copy_with_new_stage v _,
    ?_, ?_, by decide, by decide⟩
  · intro d
    cases hd : d.id with
    | none => simp [matchesFilter, hd]
    | some i =>
      simp only [matchesFilter, hd, List.contains_iff_exists_mem_beq]
      constructor
      · rintro ⟨j, hj, hbeq⟩
        have hij : i = j := by simpa using hbeq
        exact ⟨j, hj, by simp [hij]⟩
      · rintro ⟨j, hj, hsome⟩
        have hij : i = j := by simpa using hsome
        exact ⟨j, hj, by simp [hij]⟩
  · intro d
    cases hd : d.id with
    | none => simp [matchesFilter, hd]
    | some i =>
      simp only [matchesFilter, hd, Bool.not_eq_true', ← Bool.not_eq_true,
        List.contains_iff_exists_mem_beq]
      constructor
      · intro hno j hj hsome
        have hij : i = j := by simpa using hsome
        exact hno ⟨j, hj, by simp [hij]⟩
      · intro hno hex
        rcases hex with ⟨j, hj, hbeq⟩
        have hij : i = j := by simpa using hbeq
        exact hno j hj (by simp [hij])

/-- C3 witness: on the empty view the no-skip base is 0 and the index
pairing holds at position 0. -/
theorem iter_samples_with_index_base_witness :
    v0._get_latest_offset = 0
    ∧ (v0.iter_samples_with_index)[0]?
        = (v0.iter_samples[0]?).map (fun s => (v0._get_latest_offset + (0 : Nat), s)) :=
  ⟨(iter_samples_with_index_base v0 0 0).2.2.2.1 (by decide),
   (iter_samples_with_index_base v0 0 0).1⟩

/-- C6: a `filter` call that passes `insight_group` or `label_group` fails
immediately at the chain call with `NotImplementedError`, before any
materialization; it never returns a view. -/
theorem filter_not_implemented (v : DatasetView) (tag ig lg : Option String)
    (q : Option Query) (h : ig.isSome = true ∨ lg.isSome = true) :
    v.filter tag ig lg q = .error (.notImplementedError "Not yet implemented") := by
  cases hig : ig with
  | some g => cases tag <;> rfl
  | none =>
    have hlg : lg.isSome = true := by
      rcases h with h1 | h1
      · rw [hig] at h1; simp at h1
      · exact h1
    obtain ⟨g, rfl⟩ := Option.isSome_iff_exists.mp hlg
    cases tag <;> rfl

/-- C6 witness: passing an insight group on the empty view raises the
not-implemented error. -/
theorem filter_not_implemented_witness :
    v0.filter none (some "g") none none
      = .error (.notImplementedError "Not yet implemented") :=
  filter_not_implemented v0 none (some "g") none none (Or.inl rfl)

/-- C7: `__getitem__` fails with `KeyError` carrying the requested id exactly
when materializing the view's pipeline with an appended match-on-that-id
stage yields no document; on a match, the sample is fetched through the
owning dataset directly — it is the dataset's own fully populated record for
that id. -/
theorem getitem_spec (v : DatasetView) (sampleId : Nat) :
    (v.__getitem__ sampleId = .error (.keyError sampleId)
        ↔ v.aggregate (some [Stage.matchStage (.idEq sampleId)]) = [])
    ∧ (v.aggregate (some [Stage.matchStage (.idEq sampleId)]) ≠ [] →
        v.__getitem__ sampleId = v._dataset.getitem sampleId
        ∧ ∃ s : Sample, v.__getitem__ sampleId = .ok s ∧ s.dataset = v._dataset
            ∧ s.doc ∈ v._dataset.docs ∧ s.doc.id = some sampleId) := by
  by_cases hres : v.aggregate (some [Stage.matchStage (.idEq sampleId)]) = []
  · refine ⟨⟨fun _ => hres, fun _ => ?_⟩, fun h => absurd hres h⟩
    simp [DatasetView.__getitem__, hres]
  · obtain ⟨d, hfind⟩ := find_id_of_aggregate_ne_nil v sampleId hres
    have hgi : v.__getitem__ sampleId = v._dataset.getitem sampleId := by
      simp [DatasetView.__getitem__, List.isEmpty_iff, hres]
    have hok : v._dataset.getitem sampleId = .ok { doc := d, dataset := v._dataset } := by
      simp [Dataset.getitem, hfind]
    have hd_mem : d ∈ v._dataset.docs := List.mem_of_find?_eq_some hfind
    have hd_id : d.id = some sampleId := by
      have hp := List.find?_some hfind
      simpa using hp
    refine ⟨⟨fun herr => ?_, fun h => absurd h hres⟩, fun _ => ⟨hgi, ?_⟩⟩
    · rw [hgi, hok] at herr
      cases herr
    · exact ⟨{ doc := d, dataset := v._dataset }, by rw [hgi, hok], rfl, hd_mem, hd_id⟩

/-- C7 witness: record B is found through the scenario view and returned as
the dataset's own record. -/
theorem getitem_spec_witness :
    vABCDE.__getitem__ 2 = vABCDE._dataset.getitem 2
    ∧ vABCDE.__getitem__ 2 = Except.ok { doc := docB, dataset := dsABCDE } :=
  ⟨((getitem_spec vABCDE 2).2 (by decide)).1, rfl⟩

/-- C8: `__len__` executes the pipeline with one appended `$count` stage and
returns 0 as a normal value when that execution yields no result document;
the length always equals the number of materialized documents, and appending
a match stage that matches nothing gives length 0. -/
theorem len_zero_on_empty (v : DatasetView) (f : MatchFilter) :
    v.__len__ = ((v.aggregate none).length : Int)
    ∧ (v.aggregate (some [Stage.countStage "count"]) = [] → v.__len__ = 0)
    ∧ ((∀ d ∈ v.aggregate none, matchesFilter f d = false) →
        (v._copy_with_new_stage (.matchStage f)).__len__ = 0) := by
  refine ⟨len_eq_card v, ?_, ?_⟩
  · intro h
    unfold DatasetView.__len__
    rw [h]
    rfl
  · intro h
    rw [len_eq_card]
    have h1 : (v._copy_with_new_stage (.matchStage f)).aggregate none = [] := by
      rw [aggregate_copy_with_new_stage]
      simp only [execStage]
      rw [List.filter_eq_nil_iff]
      intro d hd
      simp [h d hd]
    rw [h1]
    rfl

/-- C8 witness: the empty view counts 0, both through the empty count result
and through an appended never-matching stage. -/
theorem len_zero_on_empty_witness :
    v0.__len__ = 0 ∧ (v0._copy_with_new_stage (.matchStage (.tagEq "x"))).__len__ = 0 :=
  ⟨(len_zero_on_empty v0 (.tagEq "x")).2.1 (by decide),
   (len_zero_on_empty v0 (.tagEq "x")).2.2 (by decide)⟩

/-- C9 counterexample: `take` with the negative size −1 is not rejected at
the chain call — the call returns a view with a `$limit −1` stage appended. -/
theorem take_negative_not_rejected :
    (v0.take (-1) false)._pipeline = [Stage.limitStage (-1)]
    ∧ (v0.take (-1) false)._pipeline ≠ v0._pipeline :=
  ⟨rfl, by decide⟩

/-- C9 amended: `take` performs no validation of its size argument: for
every integer size it appends exactly one stage (`$sample` when random, else
`$limit`) and returns the new view; a take of size 0 materializes to the
empty result set. -/
theorem take_spec (v : DatasetView) (size : Int) (random : Bool) :
    (v.take size random)._pipeline
        = v._pipeline ++ [if random then Stage.sampleStage size else Stage.limitStage size]
    ∧ (v.take 0 random).aggregate none = [] := by
  constructor
  · cases random <;> rfl
  · have h0 : v.take 0 random
        = v._copy_with_new_stage (if random then Stage.sampleStage 0 else Stage.limitStage 0) := by
      cases random <;> rfl
    rw [h0, aggregate_copy_with_new_stage]
    cases random <;> simp [execStage]

/-- C10: `filter` is atomic on error: when `insight_group` or `label_group`
is given the call produces only the `NotImplementedError` — no view escapes,
and the outcome is identical whether or not a `tag` was passed in the same
failing call, so the match stage built from the tag is discarded; the
receiver, a value the call never rebuilds, keeps its pipeline. -/
theorem filter_atomic_on_error (v : DatasetView) (t ig lg : String)
    (lgo : Option String) (q : Option Query) :
    v.filter (some t) (some ig) lgo q = .error (.notImplementedError "Not yet implemented")
    ∧ v.filter (some t) (some ig) lgo q = v.filter none (some ig) lgo q
    ∧ v.filter (some t) none (some lg) q = .error (.notImplementedError "Not yet implemented")
    ∧ v.filter (some t) none (some lg) q = v.filter none none (some lg) q :=
  ⟨rfl, rfl, rfl, rfl⟩

end FiftyOne
